import Mathlib

/-!
Shallow embedding of the ODE-curve subsystem of the kgjs repository:
`src/ts/math/odeSystemFunction.ts` (expression evaluator, RK4 trajectory
engine, dot sampler, update gate) and
`src/ts/view/viewObjects/animationODE.ts` (animation scheduler).

Modelling conventions:
* JavaScript numbers are modelled as rationals (ℚ); the `[NaN, NaN]`
  sentinel stored in `lastInitial` at construction time is modelled as
  `none` of an `Option`, since `NaN !== v` holds for every `v` exactly
  as `none ≠ some v` does here.
* A parameter snapshot (`model.currentParamValues`) is an association
  list from names to numbers; `params[k]` is `Params.get`, returning
  `none` for an absent key (JavaScript `undefined`).
* A compiled mathjs evaluator is a function that may fail (`Option`),
  modelling a thrown evaluation exception; `math.compile` applied to a
  derivative definition string (after `updateFunctionString`, which
  substitutes the current scope) is modelled as a `Formula`: a function
  from the parameter snapshot to `Except Unit` of an evaluator, where
  `Except.error` models a thrown compilation exception.
* Out-of-bounds or fractional JavaScript array indexing yields
  `undefined`, modelled as `none`.
-/

namespace KGjs

/-- A JavaScript value as far as the dynamic-attribute evaluator is
concerned: `null`, `undefined`, a boolean, a number, or a string. -/
inductive JSVal where
  | null : JSVal
  | undef : JSVal
  | bool (b : Bool) : JSVal
  | num (q : ℚ) : JSVal
  | str (s : String) : JSVal
deriving DecidableEq, Repr

/-- A parameter snapshot: `model.currentParamValues`, name to number. -/
abbrev Params := List (String × ℚ)

/-- JavaScript `params[k]`: the value bound to `k`, or `none` when absent. -/
def Params.get (p : Params) (k : String) : Option ℚ :=
  (p.find? (fun kv => kv.1 == k)).map (fun kv => kv.2)

/-- A compiled derivative evaluator: `(x, y, params) → number`, where
`none` models a thrown evaluation exception. -/
abbrev EvalFn := ℚ → ℚ → Params → Option ℚ

/-- A derivative definition string together with its compilation against
the current scope (`math.compile(updateFunctionString(def, scope))`):
given the parameter snapshot it either compiles to an evaluator or
throws (`Except.error`). -/
abbrev Formula := Params → Except Unit EvalFn

/-- A trajectory state: the `{x, y}` pairs stored in `data`. -/
structure Point where
  x : ℚ
  y : ℚ
deriving DecidableEq, Repr

/-- The state of an `ODESystemFunction` instance (the fields of the class
that the core operations read and write).  The visual attributes that the
dot sampler consumes (`showDots`, `dotSpacing`) are carried at their
resolved types; their dynamic (`JSVal`) life cycle is modelled separately
by `DynAttrs` below. -/
structure ODESystemFunction where
  dxdtDef : Formula
  dydtDef : Formula
  initial : ℚ × ℚ
  steps : ℕ
  dt : ℚ
  lastInitial : Option (ℚ × ℚ)
  lastParams : Params
  data : List Point
  dots : List (Option Point)
  version : ℕ
  showDots : Bool
  dotSpacing : ℚ

namespace ODESystemFunction

/-- Lines 172-173 and 233-234 of `odeSystemFunction.ts`: the resolved
initial condition — the reserved parameters `px`/`py` when defined,
otherwise the static initial pair. -/
def resolvedInitial (fn : ODESystemFunction) (params : Params) : ℚ × ℚ :=
  ((Params.get params "px").getD fn.initial.1,
   (Params.get params "py").getD fn.initial.2)

end ODESystemFunction

/-- The `deriv` method: each compiled derivative is evaluated at the
current state and scope, and a thrown evaluation exception is caught and
replaced by a zero derivative for that component. -/
def deriv (dxdtCompiled dydtCompiled : EvalFn) (params : Params)
    (s : Point) : ℚ × ℚ :=
  ((dxdtCompiled s.x s.y params).getD 0,
   (dydtCompiled s.x s.y params).getD 0)

/-- The `rk4Step` method: one classical RK4 step of size `h`. -/
def rk4Step (dx dy : EvalFn) (params : Params) (s : Point) (h : ℚ) : Point :=
  let k1 := deriv dx dy params s
  let s2 : Point := ⟨s.x + (1/2) * h * k1.1, s.y + (1/2) * h * k1.2⟩
  let k2 := deriv dx dy params s2
  let s3 : Point := ⟨s.x + (1/2) * h * k2.1, s.y + (1/2) * h * k2.2⟩
  let k3 := deriv dx dy params s3
  let s4s : Point := ⟨s.x + h * k3.1, s.y + h * k3.2⟩
  let k4 := deriv dx dy params s4s
  ⟨s.x + (h/6) * (k1.1 + 2*k2.1 + 2*k3.1 + k4.1),
   s.y + (h/6) * (k1.2 + 2*k2.2 + 2*k3.2 + k4.2)⟩

/-- The integration loop of `generateData`: `steps` RK4 iterations,
collecting each successive state. -/
def runSteps (dx dy : EvalFn) (params : Params) (h : ℚ) :
    ℕ → Point → List Point
  | 0, _ => []
  | n + 1, s =>
    let s' := rk4Step dx dy params s h
    s' :: runSteps dx dy params h n s'

namespace ODESystemFunction

/-- The `generateData` method (lines 162-191): resolve the initial
condition from the snapshot, compile both derivative formulas (a
compilation exception propagates — there is no try/catch around
`math.compile`), integrate `steps` RK4 iterations starting from the
initial state, store the trajectory and bump `version`.  Returns the
produced data together with the updated instance. -/
def generateData (fn : ODESystemFunction) (params : Params) :
    Except Unit (List Point × ODESystemFunction) := do
  let x0 := (fn.resolvedInitial params).1
  let y0 := (fn.resolvedInitial params).2
  let dx ← fn.dxdtDef params
  let dy ← fn.dydtDef params
  let s0 : Point := ⟨x0, y0⟩
  let dataList := s0 :: runSteps dx dy params fn.dt fn.steps s0
  return (dataList, { fn with data := dataList, version := fn.version + 1 })

end ODESystemFunction

/-- JavaScript array indexing `data[i]` at a rational index: an element
for an in-range integer index, `undefined` (`none`) otherwise. -/
def jsGetQ (data : List Point) (i : ℚ) : Option Point :=
  if i.den = 1 ∧ 0 ≤ i.num then data.get? i.num.toNat else none

/-- The sampling loop of `generateDots`:
`for (let i = 0; i < data.length; i += dotSpacing) dots.push(data[i])`,
with explicit fuel (the stride is at least 1 on every path through
`generateDots`, so `data.length` iterations always suffice). -/
def sampleLoop (data : List Point) (stride : ℚ) :
    ℕ → ℚ → List (Option Point)
  | 0, _ => []
  | fuel + 1, i =>
    if i < (data.length : ℚ) then
      jsGetQ data i :: sampleLoop data stride fuel (i + stride)
    else []

namespace ODESystemFunction

/-- The `generateDots` method (lines 193-213): return `[]` when dots are
disabled or the trajectory is empty (leaving the stored `dots` field
untouched); otherwise default a falsy spacing to 10, convert a spacing
below 1 to the stride `max 1 ⌊length * spacing⌋`, sample the trajectory
at multiples of the stride, store and return the samples. -/
def generateDots (fn : ODESystemFunction) :
    List (Option Point) × ODESystemFunction :=
  if !fn.showDots || fn.data.isEmpty then ([], fn)
  else
    let spacing0 := if fn.dotSpacing = 0 then 10 else fn.dotSpacing
    let stride :=
      if spacing0 < 1 then
        max 1 ((⌊(fn.data.length : ℚ) * spacing0⌋ : ℤ) : ℚ)
      else spacing0
    let dotsList := sampleLoop fn.data stride fn.data.length 0
    (dotsList, { fn with dots := dotsList })

/-- The `evaluate` method (lines 215-218):
`data[Math.min(Math.floor(t / dt), data.length - 1)]`.  There is no
lower clamp, so a negative index yields `undefined` (`none`). -/
def evaluate (fn : ODESystemFunction) (t : ℚ) : Option Point :=
  let i : ℤ := min ⌊t / fn.dt⌋ ((fn.data.length : ℤ) - 1)
  if 0 ≤ i then fn.data.get? i.toNat else none

/-- The `update` method (lines 223-267), state component.  The call to
`super.update(force)` belongs to the base `MathFunction` class, which is
outside this subsystem and does not touch the fields modelled here; the
re-evaluation of the dynamic visual attributes (lines 246-253) acts on
the `JSVal` attribute record and is modelled by `DynAttrs.updateAttrs`
below.  The gate recomputes the resolved initial condition and compares
it and every current parameter value against the recorded baselines;
when `force` is set, the trajectory is empty, or either comparison
detects a change, it records the new baselines and regenerates (a
compilation exception from `generateData` propagates), returning the
flag `hasChanged`. -/
def update (fn : ODESystemFunction) (params : Params) (force : Bool) :
    Except Unit (ODESystemFunction × Bool) :=
  let x0 := (fn.resolvedInitial params).1
  let y0 := (fn.resolvedInitial params).2
  let changedInitial : Bool :=
    match fn.lastInitial with
    | none => true
    | some p => p.1 != x0 || p.2 != y0
  let changedParams : Bool :=
    params.any (fun kv => !(Params.get fn.lastParams kv.1 == some kv.2))
  if force || changedInitial || changedParams || fn.data.isEmpty then
    match (({ fn with lastInitial := some (x0, y0),
                      lastParams := params } :
        ODESystemFunction).generateData params) with
    | .error e => .error e
    | .ok (_, fn') =>
      let fn'' := if fn'.showDots then (fn'.generateDots).2 else fn'
      .ok (fn'', true)
  else
    .ok (fn, false)

end ODESystemFunction

/-! The generic expression evaluator `evaluateExpr` (lines 103-133) and
the dynamic visual-attribute record it feeds. -/

/-- A whitespace character in the sense of `String.prototype.trim`
(restricted to the ASCII whitespace actually used here). -/
def isJsSpace (c : Char) : Bool := c.isWhitespace

/-- JavaScript `s.trim()`: leading and trailing whitespace removed.
Implemented over the character list so that it is fully executable. -/
def jsTrim (s : String) : String :=
  String.mk (((s.data.dropWhile isJsSpace).reverse.dropWhile
    isJsSpace).reverse)

/-- JavaScript `s.startsWith(p)`. -/
def strStartsWith (s p : String) : Bool :=
  p.data.isPrefixOf s.data

/-- A single- or double-quote character (code point 39 is the single
quote). -/
def isQuoteChar (c : Char) : Bool :=
  c.toNat == 39 || c == '"'

/-- The guard of step 1 of `evaluateExpr`: a (trimmed) string that is
already quoted or begins with a color-literal marker. -/
def isProtectedLiteral (t : String) : Bool :=
  strStartsWith t "'" || strStartsWith t "\"" ||
  strStartsWith t "#" || strStartsWith t "rgb" || strStartsWith t "hsl"

/-- The replacement `trimmed.replace(/^['"]|['"]$/g, '')`: remove one
leading quote character if present, then one trailing quote character
if present. -/
def stripOuterQuotes (s : String) : String :=
  let l := s.data
  let l1 := match l with
    | c :: rest => if isQuoteChar c then rest else l
    | [] => []
  let l2 := match l1.getLast? with
    | some c => if isQuoteChar c then l1.dropLast else l1
    | none => l1
  String.mk l2

/-- The `evaluateExpr` method.  `jsEval` stands for the host-JavaScript
evaluation of the string against the model's three namespaces
(`new Function("params","calcs","colors", ...)` applied to the current
scope); `none` models a thrown exception, in which case the original
string is returned unchanged.  `null`, `undefined`, booleans and numbers
are returned unchanged; protected literal strings are returned trimmed
with outer quotes stripped, without consulting `jsEval`. -/
def evaluateExpr (jsEval : String → Option JSVal) (expr : JSVal) : JSVal :=
  match expr with
  | .str s =>
    let trimmed := jsTrim s
    if isProtectedLiteral trimmed then .str (stripOuterQuotes trimmed)
    else
      match jsEval s with
      | some v => v
      | none => .str s
  | e => e

/-- The dynamic visual attributes of an `ODESystemFunction` at their
stored (JavaScript) values: each field holds whatever the last pass of
`evaluateExpr` produced. -/
structure DynAttrs where
  showDots : JSVal
  dotSpacing : JSVal
  dotRadius : JSVal
  dotColor : JSVal
  animation : JSVal
  speed : JSVal
  movingDotColor : JSVal
  movingDotRadius : JSVal
  restartDelay : JSVal
deriving DecidableEq, Repr

namespace DynAttrs

/-- Constructor lines 86-94: every configured attribute (including
`restartDelay`) is passed through `evaluateExpr` against the model and
the result is stored in the field. -/
def constructorAttrs (jsEval : String → Option JSVal) (d : DynAttrs) :
    DynAttrs where
  showDots := evaluateExpr jsEval d.showDots
  dotSpacing := evaluateExpr jsEval d.dotSpacing
  dotRadius := evaluateExpr jsEval d.dotRadius
  dotColor := evaluateExpr jsEval d.dotColor
  animation := evaluateExpr jsEval d.animation
  speed := evaluateExpr jsEval d.speed
  movingDotColor := evaluateExpr jsEval d.movingDotColor
  movingDotRadius := evaluateExpr jsEval d.movingDotRadius
  restartDelay := evaluateExpr jsEval d.restartDelay

/-- Update lines 246-253: each stored attribute value (not the original
configured expression) is passed through `evaluateExpr` again;
`restartDelay` is not re-evaluated. -/
def updateAttrs (jsEval : String → Option JSVal) (a : DynAttrs) :
    DynAttrs where
  showDots := evaluateExpr jsEval a.showDots
  dotSpacing := evaluateExpr jsEval a.dotSpacing
  dotRadius := evaluateExpr jsEval a.dotRadius
  dotColor := evaluateExpr jsEval a.dotColor
  animation := evaluateExpr jsEval a.animation
  speed := evaluateExpr jsEval a.speed
  movingDotColor := evaluateExpr jsEval a.movingDotColor
  movingDotRadius := evaluateExpr jsEval a.movingDotRadius
  restartDelay := a.restartDelay

end DynAttrs

/-! Embedding of the animation scheduler `AnimationODE`
(`src/ts/view/viewObjects/animationODE.ts`).  The host environment's
timer and animation-frame queues are modelled explicitly as lists of
pending handle identifiers, so "at most one pending timer / motion loop"
is a provable property of reachable states rather than a typing
artifact.  Rendering (`renderDots`, dot positioning) and the fractional
frame arithmetic of the motion loop are display-only and are not part of
the scheduler state modelled here. -/

/-- The scheduler state: the private fields of `AnimationODE` together
with the host's pending one-shot timers and pending animation-frame
callbacks, and a fresh-handle counter. -/
structure SchedWorld where
  active : Bool
  paused : Bool
  handle : Option ℕ
  restartTimeout : Option ℕ
  pendingTimers : List ℕ
  pendingFrames : List ℕ
  nextId : ℕ
deriving DecidableEq, Repr

namespace SchedWorld

/-- The state of a freshly constructed `AnimationODE`. -/
def init : SchedWorld where
  active := false
  paused := false
  handle := none
  restartTimeout := none
  pendingTimers := []
  pendingFrames := []
  nextId := 0

/-- The `stop` method (lines 161-169): a no-op when neither active nor
holding a handle; otherwise clear the active flag, cancel the held
animation-frame handle, and drop it. -/
def stopOp (w : SchedWorld) : SchedWorld :=
  if !w.active && w.handle == none then w
  else
    { w with
      active := false
      handle := none
      pendingFrames :=
        match w.handle with
        | some h => w.pendingFrames.erase h
        | none => w.pendingFrames }

/-- The `start` method (lines 108-156): stop first, bail out when
animation is off or the data is empty, otherwise become active and
request the first animation frame.  `animOn` and `dataNE` are the
`opts.animation` flag and the non-emptiness of the passed data. -/
def startOp (animOn dataNE : Bool) (w : SchedWorld) : SchedWorld :=
  let w1 := stopOp w
  if !animOn || !dataNE then w1
  else
    { w1 with
      active := true
      handle := some w1.nextId
      pendingFrames := w1.pendingFrames ++ [w1.nextId]
      nextId := w1.nextId + 1 }

/-- The scheduler part of the `update` method (lines 52-74): stop any
running motion loop, clear any pending restart timer, and — when the
animation attribute resolves to on — arm a fresh restart timer.
(The data/dots regeneration at lines 38-43 acts on the function object,
modelled by `ODESystemFunction.generateData`/`generateDots`; the static
dot rendering is display-only.) -/
def updateOp (animOn : Bool) (w : SchedWorld) : SchedWorld :=
  let w1 := stopOp w
  let w2 :=
    match w1.restartTimeout with
    | some tid =>
      { w1 with
        pendingTimers := w1.pendingTimers.erase tid
        restartTimeout := none }
    | none => w1
  if animOn then
    { w2 with
      restartTimeout := some w2.nextId
      pendingTimers := w2.pendingTimers ++ [w2.nextId]
      nextId := w2.nextId + 1 }
  else w2

/-- The host fires the pending restart timer (the callback armed at
lines 64-73): clear the stored timeout handle, and unless a motion loop
is already active, call `start` with the values the closure reads from
the function object at fire time. -/
def fireTimerOp (animOn dataNE : Bool) (w : SchedWorld) : SchedWorld :=
  match w.pendingTimers with
  | [] => w
  | _tid :: rest =>
    let w1 := { w with pendingTimers := rest, restartTimeout := none }
    if w1.active then w1 else startOp animOn dataNE w1

/-- The host fires the pending animation frame (the `animate` closure,
lines 137-153): when no longer active the loop ends without
rescheduling; otherwise the next frame is requested and its handle
stored. -/
def fireFrameOp (w : SchedWorld) : SchedWorld :=
  match w.pendingFrames with
  | [] => w
  | _fid :: rest =>
    if w.active then
      { w with
        pendingFrames := rest ++ [w.nextId]
        handle := some w.nextId
        nextId := w.nextId + 1 }
    else { w with pendingFrames := rest }

/-- The `pause` method (lines 174-179). -/
def pauseOp (w : SchedWorld) : SchedWorld :=
  if w.active then stopOp { w with paused := true } else w

/-- The `resume` method (lines 181-186). -/
def resumeOp (animOn dataNE : Bool) (w : SchedWorld) : SchedWorld :=
  if w.paused then startOp animOn dataNE { w with paused := false } else w

/-- An externally triggered scheduler operation or host callback. -/
inductive SchedEvent where
  | update (animOn : Bool) : SchedEvent
  | fireTimer (animOn dataNE : Bool) : SchedEvent
  | fireFrame : SchedEvent
  | stopEv : SchedEvent
  | pause : SchedEvent
  | resume (animOn dataNE : Bool) : SchedEvent
deriving DecidableEq, Repr

/-- One step of the event-driven scheduler semantics. -/
def schedStep (w : SchedWorld) : SchedEvent → SchedWorld
  | .update a => updateOp a w
  | .fireTimer a d => fireTimerOp a d w
  | .fireFrame => fireFrameOp w
  | .stopEv => stopOp w
  | .pause => pauseOp w
  | .resume a d => resumeOp a d w

/-- Run a sequence of scheduler events from the initial state. -/
def run (es : List SchedEvent) : SchedWorld :=
  es.foldl schedStep init

/-- The strengthened scheduler invariant used for the induction: the
pending-timer queue is empty or the single armed timer recorded in
`restartTimeout`, and the pending-frame queue is empty or the single
frame recorded in `handle`. -/
def StrongInv (w : SchedWorld) : Prop :=
  (w.pendingTimers = [] ∨
    ∃ t, w.pendingTimers = [t] ∧ w.restartTimeout = some t) ∧
  (w.pendingFrames = [] ∨
    ∃ f, w.pendingFrames = [f] ∧ w.handle = some f)

end SchedWorld

/-! Spec-side definitions and concrete instances used to exercise the
embedding on explicit inputs. -/

/-- The staleness condition exactly as the specification of the Update
Gate states it: `force` set, empty trajectory, resolved initial
condition differing from the last-recorded one, or some current
parameter value differing from its last-recorded value (an absent name
counts as a difference).  Stated from the spec's words, to be compared
with the gate implemented by `ODESystemFunction.update`. -/
def SpecStale (fn : ODESystemFunction) (params : Params) (force : Bool) :
    Prop :=
  force = true ∨ fn.data = [] ∨
  fn.lastInitial ≠ some (fn.resolvedInitial params) ∨
  ∃ kv ∈ params, Params.get fn.lastParams kv.1 ≠ some kv.2

/-- A compiled evaluator that throws on every evaluation. -/
def failEval : EvalFn := fun _ _ _ => none

/-- A baseline concrete instance: both derivative evaluators throw on
every evaluation (so every derivative degrades to 0), two integration
steps of size 1, static initial condition (0, 0). -/
def fnW : ODESystemFunction where
  dxdtDef := fun _ => .ok failEval
  dydtDef := fun _ => .ok failEval
  initial := (0, 0)
  steps := 2
  dt := 1
  lastInitial := none
  lastParams := []
  data := []
  dots := []
  version := 0
  showDots := false
  dotSpacing := 60

/-- A parameter snapshot defining the reserved name `px`. -/
def pW : Params := [("px", 2)]

/-- An instance whose `dx/dt` formula fails to compile. -/
def fnBad : ODESystemFunction := { fnW with dxdtDef := fun _ => .error () }

/-- An instance with a one-state trajectory and `dt = 1`. -/
def fnC4 : ODESystemFunction := { fnW with data := [⟨0, 0⟩] }

/-- An instance with dots enabled, a five-state trajectory and integer
dot spacing 2. -/
def fnC5 : ODESystemFunction :=
  { fnW with
    showDots := true
    data := [⟨0, 0⟩, ⟨1, 0⟩, ⟨2, 0⟩, ⟨3, 0⟩, ⟨4, 0⟩]
    dotSpacing := 2 }

/-- An instance whose recorded baselines contain a parameter name (`b`)
that the current snapshot `pC9` no longer defines. -/
def fnC9 : ODESystemFunction :=
  { fnW with
    data := [⟨0, 0⟩]
    lastInitial := some (0, 0)
    lastParams := [("a", 1), ("b", 2)] }

/-- The current snapshot for `fnC9`: parameter `b` has been removed. -/
def pC9 : Params := [("a", 1)]

/-- An instance with dots disabled but a previously published dot set. -/
def fnC10 : ODESystemFunction :=
  { fnW with data := [⟨0, 0⟩], dots := [some ⟨1, 1⟩] }

/-- A dynamic-attribute record whose `showDots` is configured as the
expression string `"a > 2"`; the other attributes are literals. -/
def attrs0 : DynAttrs where
  showDots := .str "a > 2"
  dotSpacing := .num 60
  dotRadius := .num 3
  dotColor := .str "green"
  animation := .bool false
  speed := .num 1
  movingDotColor := .str "red"
  movingDotRadius := .num 5
  restartDelay := .num 1000

/-- Host evaluation of expressions at construction time, when the
parameter `a` is 1: the formula `"a > 2"` evaluates to `false`. -/
def jsEvalA1 : String → Option JSVal :=
  fun s => if s = "a > 2" then some (.bool false) else none

/-- Host evaluation of expressions at a later tick, when the parameter
`a` is 5: the formula `"a > 2"` evaluates to `true`. -/
def jsEvalA5 : String → Option JSVal :=
  fun s => if s = "a > 2" then some (.bool true) else none

/-! Helper lemmas. -/

theorem runSteps_length (dx dy : EvalFn) (params : Params) (h : ℚ)
    (n : ℕ) (s : Point) : (runSteps dx dy params h n s).length = n := by
  induction n generalizing s with
  | zero => rfl
  | succ k ih => simp [runSteps, ih]

theorem generateData_ok (fn : ODESystemFunction) (params : Params)
    (f g : EvalFn) (hf : fn.dxdtDef params = .ok f)
    (hg : fn.dydtDef params = .ok g) :
    fn.generateData params =
      .ok (⟨(fn.resolvedInitial params).1, (fn.resolvedInitial params).2⟩ ::
            runSteps f g params fn.dt fn.steps
              ⟨(fn.resolvedInitial params).1, (fn.resolvedInitial params).2⟩,
          { fn with
            data := ⟨(fn.resolvedInitial params).1,
                     (fn.resolvedInitial params).2⟩ ::
              runSteps f g params fn.dt fn.steps
                ⟨(fn.resolvedInitial params).1,
                 (fn.resolvedInitial params).2⟩
            version := fn.version + 1 }) := by
  simp [ODESystemFunction.generateData, hf, hg, Bind.bind, Except.bind,
    Functor.map, Except.map, Pure.pure, Except.pure]

/-- C1: for every positive `steps`, positive `dt` and parameter
snapshot, a successful call to `generateData` produces a trajectory of
exactly `steps + 1` states whose state 0 is the resolved initial
condition (`px`/`py` when defined, otherwise the static pair). -/
theorem generateData_trajectory_length_and_initial
    (fn : ODESystemFunction) (params : Params)
    (res : List Point × ODESystemFunction)
    (hsteps : 0 < fn.steps) (hdt : 0 < fn.dt)
    (hok : fn.generateData params = .ok res) :
    res.1.length = fn.steps + 1 ∧
    res.1.head? = some ⟨(fn.resolvedInitial params).1,
                        (fn.resolvedInitial params).2⟩ := by
  rcases hx : fn.dxdtDef params with e | f
  · simp [ODESystemFunction.generateData, hx, Bind.bind, Except.bind,
      Functor.map, Except.map] at hok
  rcases hy : fn.dydtDef params with e | g
  · simp [ODESystemFunction.generateData, hx, hy, Bind.bind, Except.bind,
      Functor.map, Except.map] at hok
  rw [generateData_ok fn params f g hx hy] at hok
  cases hok
  simp [runSteps_length]

/-- Witness for C1 at the concrete instance `fnW` with snapshot `pW`:
the trajectory has `2 + 1` states and starts at the resolved initial
condition (2, 0) dictated by the reserved parameter `px`. -/
theorem generateData_trajectory_length_and_initial_witness :
    0 < fnW.steps ∧ 0 < fnW.dt ∧
    ∃ res, fnW.generateData pW = .ok res ∧ res.1.length = 2 + 1 ∧
      res.1.head? = some ⟨2, 0⟩ := by
  have hok := generateData_ok fnW pW failEval failEval rfl rfl
  have h := generateData_trajectory_length_and_initial fnW pW _
    (by decide) (by norm_num [fnW]) hok
  exact ⟨by decide, by norm_num [fnW], _, hok, h.1, h.2.trans (by decide)⟩

/-- C2 counterexample: an instance whose `dx/dt` formula fails to
compile makes `generateData` itself throw — the exception is not caught
(there is no try/catch around `math.compile`), contradicting the claim
that no exception is ever propagated out of `generateData`. -/
theorem generateData_compile_failure_throws :
    fnBad.generateData [] = .error () := rfl

/-- C2 (amended): an evaluation failure of a derivative expression is
recovered locally as a zero derivative for the affected component, and
provided both derivative formulas compile successfully, `generateData`
never throws; a compilation failure, however, propagates. -/
theorem generateData_never_throws_given_compiled
    (fn : ODESystemFunction) (params : Params)
    (hx : ∃ f, fn.dxdtDef params = .ok f)
    (hy : ∃ g, fn.dydtDef params = .ok g) :
    (∃ res, fn.generateData params = .ok res) ∧
    (∀ (dx dy : EvalFn) (s : Point),
      (dx s.x s.y params = none → (deriv dx dy params s).1 = 0) ∧
      (dy s.x s.y params = none → (deriv dx dy params s).2 = 0)) := by
  obtain ⟨f, hf⟩ := hx
  obtain ⟨g, hg⟩ := hy
  refine ⟨⟨_, generateData_ok fn params f g hf hg⟩, ?_⟩
  intro dx dy s
  constructor <;> intro h <;> simp [deriv, h]

/-- Witness for the amended C2 at the concrete instance `fnW`, whose
derivative evaluators throw on every evaluation. -/
theorem generateData_never_throws_given_compiled_witness :
    (∃ res, fnW.generateData pW = .ok res) ∧
    (∀ (dx dy : EvalFn) (s : Point),
      (dx s.x s.y pW = none → (deriv dx dy pW s).1 = 0) ∧
      (dy s.x s.y pW = none → (deriv dx dy pW s).2 = 0)) :=
  generateData_never_throws_given_compiled fnW pW ⟨_, rfl⟩ ⟨_, rfl⟩

/-- C10: with dots disabled or an empty trajectory, `generateDots`
returns the empty sequence and leaves the instance — in particular its
published `dots` field — untouched. -/
theorem generateDots_disabled_preserves_dots
    (fn : ODESystemFunction) (h : fn.showDots = false ∨ fn.data = []) :
    fn.generateDots = ([], fn) := by
  rcases h with h | h <;> simp [ODESystemFunction.generateDots, h]

/-- Witness for C10: `fnC10` has dots disabled yet a nonempty published
dot set, which `generateDots` leaves in place. -/
theorem generateDots_disabled_preserves_dots_witness :
    fnC10.showDots = false ∧ fnC10.generateDots = ([], fnC10) ∧
    fnC10.dots = [some ⟨1, 1⟩] :=
  ⟨rfl, generateDots_disabled_preserves_dots fnC10 (Or.inl rfl), rfl⟩

/-- C7: the expression evaluator is the identity on `null`, `undefined`,
booleans and numbers; a protected string (already quoted, or beginning
with `#`, `rgb` or `hsl` after trimming) is returned as a literal with
its outer quotes stripped, independently of the host evaluator (never
evaluated as a formula); and when formula evaluation of any other
string throws, the original string is returned unchanged. -/
theorem evaluateExpr_contract (jsEval : String → Option JSVal) :
    evaluateExpr jsEval .null = .null ∧
    evaluateExpr jsEval .undef = .undef ∧
    (∀ b, evaluateExpr jsEval (.bool b) = .bool b) ∧
    (∀ q, evaluateExpr jsEval (.num q) = .num q) ∧
    (∀ s, isProtectedLiteral (jsTrim s) = true →
      evaluateExpr jsEval (.str s) = .str (stripOuterQuotes (jsTrim s)) ∧
      ∀ jsEval2, evaluateExpr jsEval2 (.str s) =
        evaluateExpr jsEval (.str s)) ∧
    (∀ s, isProtectedLiteral (jsTrim s) = false → jsEval s = none →
      evaluateExpr jsEval (.str s) = .str s) := by
  refine ⟨rfl, rfl, fun _ => rfl, fun _ => rfl, ?_, ?_⟩
  · intro s h
    exact ⟨by simp [evaluateExpr, h],
           fun jsEval2 => by simp [evaluateExpr, h]⟩
  · intro s h h2
    simp [evaluateExpr, h, h2]

/-- Witness for C7 on concrete inputs: a hex color literal passes
through untouched, a failing formula string is returned unchanged, and
`undefined` is the identity. -/
theorem evaluateExpr_contract_witness :
    evaluateExpr (fun _ => none) (.str "#ff0000") = .str "#ff0000" ∧
    evaluateExpr (fun _ => none) (.str "a+b") = .str "a+b" ∧
    evaluateExpr (fun _ => none) .undef = .undef := by
  have h := evaluateExpr_contract (fun _ => none)
  refine ⟨?_, ?_, h.2.1⟩
  · exact ((h.2.2.2.2.1 "#ff0000" (by decide)).1).trans (by decide)
  · exact h.2.2.2.2.2 "a+b" (by decide) rfl

theorem generateDots_preserves_core (fn : ODESystemFunction) :
    (fn.generateDots).2.version = fn.version ∧
    (fn.generateDots).2.data = fn.data ∧
    (fn.generateDots).2.steps = fn.steps := by
  unfold ODESystemFunction.generateDots
  split
  · exact ⟨rfl, rfl, rfl⟩
  · exact ⟨rfl, rfl, rfl⟩

theorem update_cond_eq (fn : ODESystemFunction) (params : Params)
    (force : Bool) :
    (force ||
      (match fn.lastInitial with
        | none => true
        | some p => p.1 != (fn.resolvedInitial params).1 ||
            p.2 != (fn.resolvedInitial params).2) ||
      params.any (fun kv => !(Params.get fn.lastParams kv.1 == some kv.2)) ||
      fn.data.isEmpty) = true ↔ SpecStale fn params force := by
  rcases hL : fn.lastInitial with _ | p
  · simp [SpecStale, hL]
  · simp only [SpecStale, hL, List.any_eq_true, Bool.or_eq_true,
      bne_iff_ne, ne_eq, Prod.ext_iff, not_and_or, List.isEmpty_iff,
      Bool.not_eq_true', beq_eq_false_iff_ne, Option.some.injEq,
      Prod.exists, Prod.mk.injEq]
    aesop

theorem update_stale_eq (fn : ODESystemFunction) (params : Params)
    (force : Bool) (f g : EvalFn)
    (hf : fn.dxdtDef params = .ok f) (hg : fn.dydtDef params = .ok g)
    (hs : SpecStale fn params force) :
    ∃ fn', fn.update params force = .ok (fn', true) ∧
      fn'.version = fn.version + 1 ∧
      fn'.data =
        ⟨(fn.resolvedInitial params).1, (fn.resolvedInitial params).2⟩ ::
          runSteps f g params fn.dt fn.steps
            ⟨(fn.resolvedInitial params).1,
             (fn.resolvedInitial params).2⟩ := by
  simp only [ODESystemFunction.update]
  rw [if_pos ((update_cond_eq fn params force).2 hs)]
  rw [generateData_ok
    { fn with
      lastInitial := some ((fn.resolvedInitial params).1,
        (fn.resolvedInitial params).2)
      lastParams := params } params f g hf hg]
  cases hsd : fn.showDots with
  | false => exact ⟨_, rfl, rfl, rfl⟩
  | true =>
    exact ⟨_, rfl, (generateDots_preserves_core _).1,
      (generateDots_preserves_core _).2.1⟩

/-- C3: `update(force)` regenerates the trajectory and bumps `version`
exactly when `force` is set, or the trajectory is empty, or the
resolved initial condition differs by exact inequality from the
last-recorded one, or some current parameter value differs from its
last-recorded value (a name absent from the recorded snapshot counts as
a difference); otherwise it reports unchanged, performs no
recomputation and does not bump `version`. -/
theorem update_gate_exact
    (fn : ODESystemFunction) (params : Params) (force : Bool)
    (hx : ∃ f, fn.dxdtDef params = Except.ok f)
    (hy : ∃ g, fn.dydtDef params = Except.ok g) :
    (SpecStale fn params force →
      ∃ fn', fn.update params force = .ok (fn', true) ∧
        fn'.version = fn.version + 1 ∧
        fn'.data.length = fn.steps + 1) ∧
    (¬ SpecStale fn params force →
      fn.update params force = .ok (fn, false)) := by
  obtain ⟨f, hf⟩ := hx
  obtain ⟨g, hg⟩ := hy
  constructor
  · intro hs
    obtain ⟨fn', h1, h2, h3⟩ := update_stale_eq fn params force f g hf hg hs
    exact ⟨fn', h1, h2, by rw [h3]; simp [runSteps_length]⟩
  · intro hs
    have hcond : (force ||
        (match fn.lastInitial with
          | none => true
          | some p => p.1 != (fn.resolvedInitial params).1 ||
              p.2 != (fn.resolvedInitial params).2) ||
        params.any
          (fun kv => !(Params.get fn.lastParams kv.1 == some kv.2)) ||
        fn.data.isEmpty) = false := by
      rw [Bool.eq_false_iff]
      intro hc
      exact hs ((update_cond_eq fn params force).1 hc)
    simp [ODESystemFunction.update, hcond]

/-- Witness for C3 at the concrete instance `fnC9` with `force` set:
the staleness condition holds and its hypotheses are discharged. -/
theorem update_gate_exact_witness :
    ((SpecStale fnC9 pC9 true →
      ∃ fn', fnC9.update pC9 true = .ok (fn', true) ∧
        fn'.version = fnC9.version + 1 ∧
        fn'.data.length = fnC9.steps + 1) ∧
     (¬ SpecStale fnC9 pC9 true →
      fnC9.update pC9 true = .ok (fnC9, false))) ∧
    SpecStale fnC9 pC9 true :=
  ⟨update_gate_exact fnC9 pC9 true ⟨failEval, rfl⟩ ⟨failEval, rfl⟩,
   Or.inl rfl⟩

/-- C9: change detection inspects only the names present in the current
snapshot — when every current parameter matches its recorded value, the
resolved initial condition matches the recorded one and the trajectory
is nonempty, `update(force=false)` reports unchanged even if the
recorded baseline holds extra (since removed) parameter names. -/
theorem update_removed_param_reports_unchanged
    (fn : ODESystemFunction) (params : Params)
    (hdata : fn.data ≠ [])
    (hinit : fn.lastInitial = some (fn.resolvedInitial params))
    (hparams : ∀ kv ∈ params, Params.get fn.lastParams kv.1 = some kv.2) :
    fn.update params false = .ok (fn, false) := by
  have hany : (params.any
      (fun kv => !(Params.get fn.lastParams kv.1 == some kv.2))) = false := by
    rw [List.any_eq_false]
    intro kv hkv
    simp [hparams kv hkv]
  have hempty : fn.data.isEmpty = false := by
    cases h : fn.data with
    | nil => exact absurd h hdata
    | cons a l => rfl
  simp [ODESystemFunction.update, hinit, hany, hempty]

/-- Witness for C9: `fnC9` recorded parameters `a` and `b`, the current
snapshot `pC9` defines only `a` (with its recorded value), and the gate
reports unchanged. -/
theorem update_removed_param_reports_unchanged_witness :
    fnC9.update pC9 false = .ok (fnC9, false) ∧
    Params.get fnC9.lastParams "b" = some 2 ∧
    Params.get pC9 "b" = none := by
  refine ⟨update_removed_param_reports_unchanged fnC9 pC9 (by decide)
    (by decide) (by decide), by decide, by decide⟩

/-- C4 counterexample: `evaluate` does not clamp the index below.  On a
nonempty one-state trajectory with `dt = 1`, the claim demands that
`t = -1` yield the first sample, but the code computes index
`min(⌊-1/1⌋, 0) = -1` and the out-of-bounds access yields `undefined`
(`none`), not the first sample. -/
theorem evaluate_negative_t_counterexample :
    fnC4.evaluate (-1) = none ∧ fnC4.data.get? 0 = some ⟨0, 0⟩ := by
  constructor
  · have hdt : fnC4.dt = 1 := rfl
    have h1 : ⌊(-1 : ℚ) / fnC4.dt⌋ = -1 := by
      rw [hdt, div_one]
      exact_mod_cast Int.floor_intCast (α := ℚ) (-1)
    have hd : fnC4.data = [⟨0, 0⟩] := rfl
    simp [ODESystemFunction.evaluate, h1, hd]
  · rfl

/-- C4 (amended): `evaluate(t)` returns the trajectory state at index
`min(⌊t/dt⌋, length-1)` — clamped above but not below.  For `t ≥ 0`
(where the lower clamp of the claim is vacuous) on a nonempty
trajectory this is an in-bounds nearest-earlier-sample lookup; a
negative `t` with `⌊t/dt⌋ < 0` instead produces an out-of-bounds
access. -/
theorem evaluate_clamped_above
    (fn : ODESystemFunction) (t : ℚ)
    (hdt : 0 < fn.dt) (hne : fn.data ≠ []) (ht : 0 ≤ t) :
    fn.evaluate t =
      fn.data.get? (min ⌊t / fn.dt⌋ ((fn.data.length : ℤ) - 1)).toNat ∧
    (fn.evaluate t).isSome = true := by
  have hfl : 0 ≤ ⌊t / fn.dt⌋ := Int.floor_nonneg.2 (div_nonneg ht hdt.le)
  have hlen : 0 < fn.data.length := List.length_pos.2 hne
  have hi : 0 ≤ min ⌊t / fn.dt⌋ ((fn.data.length : ℤ) - 1) :=
    le_min hfl (by omega)
  have heq : fn.evaluate t =
      fn.data.get? (min ⌊t / fn.dt⌋ ((fn.data.length : ℤ) - 1)).toNat := by
    simp [ODESystemFunction.evaluate, hi]
  refine ⟨heq, ?_⟩
  rw [heq]
  have h2 : min ⌊t / fn.dt⌋ ((fn.data.length : ℤ) - 1) ≤
      (fn.data.length : ℤ) - 1 := min_le_right _ _
  have hlt : (min ⌊t / fn.dt⌋ ((fn.data.length : ℤ) - 1)).toNat <
      fn.data.length := by omega
  simp [List.getElem?_eq_getElem hlt]

/-- Witness for the amended C4: `t = 5` on the one-state trajectory of
`fnC4` clamps to the last (here also first) sample. -/
theorem evaluate_clamped_above_witness :
    fnC4.evaluate 5 = some ⟨0, 0⟩ ∧ (0 : ℚ) ≤ 5 := by
  have h := evaluate_clamped_above fnC4 5 (by norm_num [fnC4, fnW])
    (by decide) (by norm_num)
  refine ⟨?_, by norm_num⟩
  rw [h.1]
  have hdt : fnC4.dt = 1 := rfl
  have h1 : ⌊(5 : ℚ) / fnC4.dt⌋ = 5 := by
    rw [hdt, div_one]
    exact_mod_cast Int.floor_intCast (α := ℚ) 5
  rw [h1]
  decide

theorem jsGetQ_natCast (data : List Point) (i : ℕ) :
    jsGetQ data (i : ℚ) = data.get? i := by
  simp [jsGetQ]

theorem sampleLoop_eq_range' (data : List Point) (s : ℕ) (hs : 0 < s) :
    ∀ (fuel i : ℕ), data.length ≤ i + fuel * s →
      sampleLoop data (s : ℚ) fuel (i : ℚ) =
        (List.range' i ((data.length - i + s - 1) / s) s).map
          (fun idx => data.get? idx) := by
  intro fuel
  induction fuel with
  | zero =>
    intro i hle
    have h0 : data.length - i = 0 := by omega
    have hcount : (data.length - i + s - 1) / s = 0 := by
      rw [h0]
      exact Nat.div_eq_of_lt (by omega)
    simp [sampleLoop, hcount]
  | succ n ih =>
    intro i hle
    rw [Nat.succ_mul] at hle
    by_cases hlt : i < data.length
    · have hlt' : (i : ℚ) < (data.length : ℚ) := by exact_mod_cast hlt
      rw [sampleLoop, if_pos hlt']
      have hcast : (i : ℚ) + (s : ℚ) = ((i + s : ℕ) : ℚ) := by push_cast; ring
      rw [hcast, ih (i + s) (by omega)]
      have hc : (data.length - i + s - 1) / s =
          (data.length - (i + s) + s - 1) / s + 1 := by
        rcases le_or_lt s (data.length - i) with hms | hms
        · have h1 : data.length - i + s - 1 =
              (data.length - (i + s) + s - 1) + s := by omega
          rw [h1, Nat.add_div_right _ hs]
        · have h1 : data.length - (i + s) = 0 := by omega
          have h2 : (data.length - i + s - 1) / s = 1 :=
            Nat.div_eq_of_lt_le (by omega) (by omega)
          rw [h1, h2]
          have h3 : (0 + s - 1) / s = 0 := Nat.div_eq_of_lt (by omega)
          rw [h3]
        -- wait: goal direction
      rw [hc, List.range'_succ, List.map_cons, jsGetQ_natCast]
    · have hge : ¬ (i : ℚ) < (data.length : ℚ) := by exact_mod_cast hlt
      rw [sampleLoop, if_neg hge]
      have h0 : data.length - i = 0 := by omega
      have hcount : (data.length - i + s - 1) / s = 0 := by
        rw [h0]
        exact Nat.div_eq_of_lt (by omega)
      simp [hcount]

/-- C5: with dots enabled on a nonempty trajectory, a fractional
spacing in (0, 1) is converted to the stride `max 1 ⌊length·spacing⌋`
and any other (integer, ≥ 1) spacing is used directly as the stride;
the produced dot set is exactly the trajectory states at indices
`0, stride, 2·stride, …` below the length, and always includes
index 0. -/
theorem generateDots_stride_sampling
    (fn : ODESystemFunction) (stride : ℕ)
    (hshow : fn.showDots = true) (hne : fn.data ≠ [])
    (hsp : (fn.dotSpacing = (stride : ℚ) ∧ 1 ≤ stride) ∨
           (0 < fn.dotSpacing ∧ fn.dotSpacing < 1 ∧
             (stride : ℤ) = max 1 ⌊(fn.data.length : ℚ) * fn.dotSpacing⌋)) :
    (fn.generateDots).1 =
      (List.range' 0 ((fn.data.length + stride - 1) / stride) stride).map
        (fun idx => fn.data.get? idx) ∧
    ((fn.generateDots).1).head? = some (fn.data.get? 0) := by
  have hs : 0 < stride := by
    rcases hsp with ⟨_, h⟩ | ⟨_, _, h⟩
    · omega
    · have h1 : (1 : ℤ) ≤ (stride : ℤ) := h ▸ le_max_left _ _
      exact_mod_cast h1
  have hspne : ¬ fn.dotSpacing = 0 := by
    rcases hsp with ⟨he, h1⟩ | ⟨h0, _, _⟩
    · rw [he]
      exact_mod_cast Nat.pos_iff_ne_zero.1 (by omega)
    · exact ne_of_gt h0
  have hlen : 0 < fn.data.length := List.length_pos.2 hne
  have hempty : fn.data.isEmpty = false := by
    cases h : fn.data with
    | nil => exact absurd h hne
    | cons a l => rfl
  have hbranch : (!fn.showDots || fn.data.isEmpty) = false := by
    rw [hshow, hempty]
    rfl
  have hmain : (fn.generateDots).1 =
      (List.range' 0 ((fn.data.length + stride - 1) / stride) stride).map
        (fun idx => fn.data.get? idx) := by
    have hfuel : fn.data.length ≤ 0 + fn.data.length * stride := by
      have := Nat.le_mul_of_pos_right fn.data.length hs
      omega
    have hloop := sampleLoop_eq_range' fn.data stride hs fn.data.length 0 hfuel
    rw [Nat.sub_zero] at hloop
    simp only [ODESystemFunction.generateDots, hbranch, Bool.false_eq_true,
      if_false, if_neg hspne]
    rcases hsp with ⟨he, h1⟩ | ⟨h0, h1, h2⟩
    · have hnlt : ¬ fn.dotSpacing < 1 := by
        rw [he]
        exact_mod_cast Nat.not_lt.2 h1
      rw [if_neg hnlt, he]
      simpa using hloop
    · rw [if_pos h1]
      have hQ : max 1 ((⌊(fn.data.length : ℚ) * fn.dotSpacing⌋ : ℤ) : ℚ) =
          (stride : ℚ) := by
        rw [show ((1 : ℚ)) = (((1 : ℤ) : ℚ)) by norm_num, ← Int.cast_max,
          ← h2]
        norm_num
      rw [hQ]
      simpa using hloop
  refine ⟨hmain, ?_⟩
  rw [hmain]
  obtain ⟨c, hc⟩ : ∃ c, (fn.data.length + stride - 1) / stride = c + 1 := by
    have h1 : 1 ≤ (fn.data.length + stride - 1) / stride :=
      (Nat.one_le_div_iff hs).2 (by omega)
    exact ⟨_, (Nat.succ_pred_eq_of_pos h1).symm⟩
  rw [hc, List.range'_succ]
  rfl

/-- Witness for C5: the five-state trajectory of `fnC5` with integer
spacing 2 yields exactly the states at indices 0, 2, 4. -/
theorem generateDots_stride_sampling_witness :
    (fnC5.generateDots).1 = [some ⟨0, 0⟩, some ⟨2, 0⟩, some ⟨4, 0⟩] := by
  have h := generateDots_stride_sampling fnC5 2 rfl (by decide)
    (Or.inl ⟨by norm_num [fnC5, fnW], by norm_num⟩)
  rw [h.1]
  rfl

/-- C6 (code evaluated at the failing input): an attribute configured as
the expression `"a > 2"` is evaluated once at construction (parameter
`a = 1` gives `false`) and stored; the per-tick re-evaluation of
lines 246-253 is applied to the stored boolean, on which `evaluateExpr`
is the identity, so a later tick with `a = 5` — where the configured
expression is true — still yields `false`: the expression does not
track the parameter across ticks. -/
theorem updateAttrs_freezes_evaluated_expression :
    (attrs0.constructorAttrs jsEvalA1).showDots = .bool false ∧
    ((attrs0.constructorAttrs jsEvalA1).updateAttrs jsEvalA5).showDots =
      .bool false ∧
    jsEvalA5 "a > 2" = some (.bool true) := by
  refine ⟨by decide, by decide, by decide⟩

namespace SchedWorld

theorem stopOp_eq (w : SchedWorld)
    (hF : w.pendingFrames = [] ∨
      ∃ f, w.pendingFrames = [f] ∧ w.handle = some f) :
    stopOp w = { w with active := false, handle := none,
                        pendingFrames := [] } := by
  obtain ⟨ac, pa, ha, rt, pt, pf, ni⟩ := w
  rcases hF with hF | ⟨f, hF, hH⟩ <;>
    cases ac <;> cases ha <;> simp_all [stopOp]

theorem updateOp_eq (a : Bool) (w : SchedWorld) (hw : StrongInv w) :
    updateOp a w =
      { w with
        active := false
        handle := none
        pendingFrames := []
        restartTimeout := if a then some w.nextId else none
        pendingTimers := if a then [w.nextId] else []
        nextId := if a then w.nextId + 1 else w.nextId } := by
  obtain ⟨hT, hF⟩ := hw
  simp only [updateOp, stopOp_eq w hF]
  rcases hT with hT | ⟨t, hT, hRT⟩
  · cases hRT : w.restartTimeout <;> cases a <;> simp_all
  · cases a <;> simp_all

theorem startOp_eq (a d : Bool) (w : SchedWorld)
    (hF : w.pendingFrames = [] ∨
      ∃ f, w.pendingFrames = [f] ∧ w.handle = some f) :
    startOp a d w =
      if a && d then
        { w with active := true, handle := some w.nextId,
                 pendingFrames := [w.nextId], nextId := w.nextId + 1 }
      else { w with active := false, handle := none,
                    pendingFrames := [] } := by
  simp only [startOp, stopOp_eq w hF]
  cases a <;> cases d <;> simp

theorem strongInv_init : StrongInv init := by
  exact ⟨Or.inl rfl, Or.inl rfl⟩

theorem strongInv_stopOp (w : SchedWorld) (hw : StrongInv w) :
    StrongInv (stopOp w) := by
  rw [stopOp_eq w hw.2]
  exact ⟨hw.1, Or.inl rfl⟩

theorem strongInv_startOp (a d : Bool) (w : SchedWorld)
    (hw : StrongInv w) : StrongInv (startOp a d w) := by
  rw [startOp_eq a d w hw.2]
  cases a <;> cases d <;>
    first
      | exact ⟨hw.1, Or.inl rfl⟩
      | (simp only [Bool.and_self, if_true]
         exact ⟨hw.1, Or.inr ⟨_, rfl, rfl⟩⟩)

theorem strongInv_step (w : SchedWorld) (e : SchedEvent)
    (hw : StrongInv w) : StrongInv (schedStep w e) := by
  obtain ⟨hT, hF⟩ := hw
  cases e with
  | update a =>
    rw [schedStep, updateOp_eq a w ⟨hT, hF⟩]
    cases a
    · exact ⟨Or.inl rfl, Or.inl rfl⟩
    · exact ⟨Or.inr ⟨w.nextId, rfl, rfl⟩, Or.inl rfl⟩
  | fireTimer a d =>
    rw [schedStep]
    unfold fireTimerOp
    cases hpt : w.pendingTimers with
    | nil => exact ⟨Or.inl hpt, hF⟩
    | cons t rest =>
      have hrest : rest = [] := by
        rcases hT with hT | ⟨t', hT, _⟩ <;> simp_all
      subst hrest
      by_cases hA : w.active = true
      · simp only [hA, if_true]
        exact ⟨Or.inl rfl, hF⟩
      · rw [Bool.not_eq_true] at hA
        simp only [hA, Bool.false_eq_true, if_false]
        exact strongInv_startOp a d _ ⟨Or.inl rfl, hF⟩
  | fireFrame =>
    rw [schedStep]
    unfold fireFrameOp
    cases hpf : w.pendingFrames with
    | nil => exact ⟨hT, Or.inl hpf⟩
    | cons f rest =>
      have hrest : rest = [] := by
        rcases hF with hF | ⟨f', hF, _⟩ <;> simp_all
      subst hrest
      by_cases hA : w.active = true
      · simp only [hA, if_true]
        exact ⟨hT, Or.inr ⟨_, rfl, rfl⟩⟩
      · rw [Bool.not_eq_true] at hA
        simp only [hA, Bool.false_eq_true, if_false]
        exact ⟨hT, Or.inl rfl⟩
  | stopEv =>
    rw [schedStep, stopOp_eq w hF]
    exact ⟨hT, Or.inl rfl⟩
  | pause =>
    rw [schedStep]
    unfold pauseOp
    by_cases hA : w.active = true
    · simp only [hA, if_true]
      exact strongInv_stopOp _ ⟨hT, hF⟩
    · rw [Bool.not_eq_true] at hA
      simp only [hA, Bool.false_eq_true, if_false]
      exact ⟨hT, hF⟩
  | resume a d =>
    rw [schedStep]
    unfold resumeOp
    by_cases hP : w.paused = true
    · simp only [hP, if_true]
      exact strongInv_startOp a d _ ⟨hT, hF⟩
    · rw [Bool.not_eq_true] at hP
      simp only [hP, Bool.false_eq_true, if_false]
      exact ⟨hT, hF⟩

theorem strongInv_run (es : List SchedEvent) : StrongInv (run es) := by
  suffices h : ∀ w, StrongInv w → StrongInv (es.foldl schedStep w) from
    h init strongInv_init
  induction es with
  | nil => exact fun w hw => hw
  | cons e rest ih => exact fun w hw => ih _ (strongInv_step w e hw)

theorem debounce_core (w : SchedWorld) (a : Bool) (hw : StrongInv w) :
    (updateOp true (updateOp a w)).pendingTimers.length = 1 ∧
    (updateOp true (updateOp a w)).pendingFrames = [] ∧
    (fireTimerOp true true
      (updateOp true (updateOp a w))).pendingFrames.length = 1 ∧
    (fireTimerOp true true (updateOp true (updateOp a w))).pendingTimers
      = [] ∧
    fireTimerOp true true
        (fireTimerOp true true (updateOp true (updateOp a w))) =
      fireTimerOp true true (updateOp true (updateOp a w)) := by
  have hw1 : StrongInv (updateOp a w) := strongInv_step w (.update a) hw
  have h2 := updateOp_eq true (updateOp a w) hw1
  rw [h2]
  refine ⟨rfl, rfl, ?_, ?_, ?_⟩ <;>
    simp [fireTimerOp, startOp, stopOp]

end SchedWorld

/-- C8: across every sequence of scheduler operations, at most one
armed restart timer and at most one pending motion-loop frame exist at
any instant; and two `update` calls arriving within the restart delay
(no timer firing in between) leave exactly one armed timer and no
motion loop, whose single firing produces exactly one motion-loop
frame, a second firing being a no-op — two rapid updates collapse into
exactly one eventual motion-loop start. -/
theorem scheduler_single_timer_single_loop
    (es : List SchedWorld.SchedEvent) (a : Bool) :
    ((SchedWorld.run es).pendingTimers.length ≤ 1 ∧
      (SchedWorld.run es).pendingFrames.length ≤ 1) ∧
    ((SchedWorld.schedStep (SchedWorld.schedStep (SchedWorld.run es)
        (.update a)) (.update true)).pendingTimers.length = 1 ∧
     (SchedWorld.schedStep (SchedWorld.schedStep (SchedWorld.run es)
        (.update a)) (.update true)).pendingFrames = [] ∧
     (SchedWorld.schedStep (SchedWorld.schedStep (SchedWorld.schedStep
        (SchedWorld.run es) (.update a)) (.update true))
        (.fireTimer true true)).pendingFrames.length = 1 ∧
     (SchedWorld.schedStep (SchedWorld.schedStep (SchedWorld.schedStep
        (SchedWorld.run es) (.update a)) (.update true))
        (.fireTimer true true)).pendingTimers = [] ∧
     SchedWorld.schedStep (SchedWorld.schedStep (SchedWorld.schedStep
        (SchedWorld.schedStep (SchedWorld.run es) (.update a))
        (.update true)) (.fireTimer true true)) (.fireTimer true true) =
       SchedWorld.schedStep (SchedWorld.schedStep (SchedWorld.schedStep
        (SchedWorld.run es) (.update a)) (.update true))
        (.fireTimer true true)) := by
  have hw := SchedWorld.strongInv_run es
  constructor
  · obtain ⟨hT, hF⟩ := hw
    constructor
    · rcases hT with hT | ⟨t, hT, _⟩ <;> simp [hT]
    · rcases hF with hF | ⟨f, hF, _⟩ <;> simp [hF]
  · exact SchedWorld.debounce_core (SchedWorld.run es) a hw

end KGjs
